import Mathlib

/-
Verification of the sd-lora-trainer core (trainer/trainer.py, trainer/optimizer.py,
trainer/config.py, trainer/utils/utils.py) against its design specification.

The Python source is shallowly embedded: tensors become lists of rationals
(a batch is a list of flattened per-example lists), Python ints become Nat,
Python floats become Rat (the arithmetic identities at stake are exact),
and raising/try-except becomes Except over an explicit error type.
-/

set_option maxRecDepth 40000

namespace SDLoraTrainer

/-! ## Loop extent (trainer.py, Trainer.train)

`num_update_steps_per_epoch = math.ceil(len(train_dataloader) / gradient_accumulation_steps)`
(line 229), `num_train_epochs = math.ceil(max_train_steps / num_update_steps_per_epoch)`
(line 232).  The training loop is `for epoch in range(num_train_epochs): for step, batch
in enumerate(train_dataloader)` (lines 265, 269) with no early exit; `global_step += 1`
once per batch iteration (line 519).  `L` is the dataloader length, `GA` the gradient
accumulation steps, `M` the configured `max_train_steps`. -/

/-- Python `math.ceil(L / GA)` for positive integers. -/
def numUpdateStepsPerEpoch (L GA : Nat) : Nat := (L + GA - 1) / GA

/-- Python `math.ceil(max_train_steps / num_update_steps_per_epoch)` (trainer.py line 232). -/
def numTrainEpochs (M L GA : Nat) : Nat :=
  (M + numUpdateStepsPerEpoch L GA - 1) / numUpdateStepsPerEpoch L GA

/-- Total number of iterations of the inner loop body: `num_train_epochs` epochs of
`L` batches each; there is no in-loop break on `global_step`. -/
def totalLoopIterations (M L GA : Nat) : Nat := numTrainEpochs M L GA * L

/-- `global_step` starts at 0 and is incremented once per loop iteration
(trainer.py lines 248, 519), so its value after the loop is the iteration count. -/
def finalGlobalStep (M L GA : Nat) : Nat := totalLoopIterations M L GA

/-! ## Checkpointing (trainer.py, Trainer.train)

Per iteration, before `global_step += 1`:
`if (global_step % self.config.checkpointing_steps == 0): save_lora(...); last_save_step
= global_step` (lines 450-469).  After the loop: `if (global_step - last_save_step) > 51:
output_save_dir = checkpoint-{global_step} else: checkpoint-{last_save_step}`, then the
directory is written only `if not os.path.exists(output_save_dir)` (lines 526-551).
A periodic save at step `g` creates directory `checkpoint-{g}`, so the existence test
below is membership in the list of periodic save steps. -/

/-- Folds the loop over `global_step = 0, ..., T-1`, accumulating the list of periodic
checkpoint steps and the running `last_save_step` (initialized to 0, line 250). -/
def checkpointLoop (cs T : Nat) : List Nat × Nat :=
  (List.range T).foldl
    (fun acc g => if g % cs = 0 then (acc.1 ++ [g], g) else acc) ([], 0)

/-- The step number of the directory chosen by the final-save branch
(trainer.py lines 526-529): the true final step if it is more than 51 steps past
the last periodic save, else the last periodic save step. -/
def finalSaveStep (cs T : Nat) : Nat :=
  if 51 < T - (checkpointLoop cs T).2 then T else (checkpointLoop cs T).2

/-- All checkpoint directories existing at the end of `Trainer.train`: the periodic
ones, plus the final-save directory if it does not already exist (lines 537-551). -/
def allCheckpoints (cs T : Nat) : List Nat :=
  if finalSaveStep cs T ∈ (checkpointLoop cs T).1 then (checkpointLoop cs T).1
  else (checkpointLoop cs T).1 ++ [finalSaveStep cs T]

/-- Checkpoint directories for a full run with `max_train_steps = M`, dataloader
length `L`, gradient accumulation `GA` and `checkpointing_steps = cs`. -/
def checkpointsFor (M L GA cs : Nat) : List Nat :=
  allCheckpoints cs (totalLoopIterations M L GA)

/-! ## Loss engine (trainer.py lines 376-416)

A batch tensor of shape `(b, C, H, W)` is embedded as a list of `b` examples,
each flattened over the non-batch dimensions to one list of rationals. -/

/-- Arithmetic mean of a list of rationals (`tensor.mean()`); the mean of an
empty list is `0/0 = 0` in `ℚ`, a case the code never produces. -/
def meanList (l : List ℚ) : ℚ := l.sum / l.length

/-- Pointwise combination of three lists, truncating at the shortest. -/
def zipWith3 {α β γ δ : Type} (f : α → β → γ → δ) : List α → List β → List γ → List δ
  | a :: as, b :: bs, c :: cs => f a b c :: zipWith3 f as bs cs
  | _, _, _ => []

/-- `loss = (model_pred - target).pow(2) * mask` followed by
`loss.mean(dim=list(range(1, len(loss.shape))))`: the per-example means of the
masked squared error (trainer.py lines 377 and 382, also lines 403-404). -/
def perExampleMaskedMean (P T M : List (List ℚ)) : List ℚ :=
  zipWith3 (fun p t m => meanList (zipWith3 (fun pi ti mi => (pi - ti) ^ 2 * mi) p t m))
    P T M

/-- `mask.mean(dim=list(range(1, len(loss.shape))))` while the loss is still
4-dimensional: the per-example mask means (trainer.py line 380). -/
def maskMeans (M : List (List ℚ)) : List ℚ := M.map meanList

/-- The `snr_gamma is None` branch of the loss (trainer.py lines 376-385):
per-example masked means, divided by the per-example mask means normalized to
batch-mean 1, then averaged over the batch. -/
def maskedLoss (P T M : List (List ℚ)) : ℚ :=
  let mmv := (maskMeans M).map (fun x => x / meanList (maskMeans M))
  meanList (List.zipWith (fun l x => l / x) (perExampleMaskedMean P T M) mmv)

/-- Plain mean squared error between prediction and target: the batch mean of
the per-example mean squared errors. -/
def mse (P T : List (List ℚ)) : ℚ :=
  meanList (List.zipWith
    (fun p t => meanList (List.zipWith (fun pi ti => (pi - ti) ^ 2) p t)) P T)

/-- `torch.stack([snr, snr_gamma * ones], dim=1).min(dim=1)[0] / snr`:
per-example `min(snr, snr_gamma) / snr` (trainer.py lines 392-394); for
`prediction_type = "epsilon"` this is already `mse_loss_weights` (line 400). -/
def baseWeight (gamma : ℚ) (snr : List ℚ) : List ℚ := snr.map (fun s => min s gamma / s)

/-- `mse_loss_weights = mse_loss_weights / mse_loss_weights.mean()`
(trainer.py line 402). -/
def normalizeWeights (w : List ℚ) : List ℚ := w.map (fun x => x / meanList w)

/-- `mask.mean(dim=[])`: PyTorch reduces over ALL dimensions for an empty dim
list (deprecated but current semantics), yielding the scalar mean of every mask
element. -/
def meanAllElements (M : List (List ℚ)) : ℚ :=
  (M.map List.sum).sum / ((M.map (fun r => (r.length : ℚ))).sum)

/-- The `snr_gamma is not None` branch of the loss for the supported
`"epsilon"` prediction type (trainer.py lines 387-411).  After line 404 the loss
tensor is one-dimensional (one entry per example), so `list(range(1,
len(loss.shape)))` on lines 407 and 409 is the empty list: both `mean(dim=[])`
calls are full reductions to scalars, and the mask normalization divides the
scalar mask mean by its own mean, i.e. by itself. -/
def snrLoss (gamma : ℚ) (snr : List ℚ) (P T M : List (List ℚ)) : ℚ :=
  let w := normalizeWeights (baseWeight gamma snr)
  let perEx := List.zipWith (fun l wi => l * wi) (perExampleMaskedMean P T M) w
  let mmv := meanAllElements M
  meanList perEx / (mmv / mmv)

/-! ## Textual-inversion learning rate and the hard pivot
(trainer.py lines 272-290 and 443-447) -/

/-- Python exception kinds raised on the modelled paths. -/
inductive PyError where
  | attributeError
  | keyError
  | indexError
  deriving DecidableEq

/-- The textual-inversion optimizer handle as the loop observes it: parameter
group 0 carries the current learning rate (`params_to_optimize[0]`,
trainer.py lines 113-119 and 165-169). -/
structure TIOptimizer where
  lr : ℚ
  deriving DecidableEq

/-- `completion_f = finegrained_epoch / num_train_epochs` with
`finegrained_epoch = epoch + step / len(train_dataloader)`
(trainer.py lines 287-288). -/
def completionF (epoch step L E : Nat) : ℚ :=
  ((epoch : ℚ) + (step : ℚ) / (L : ℚ)) / (E : ℚ)

/-- The analytic decay written on trainer.py line 290:
`self.config.textual_inversion_lr * (1 - completion_f) ** 2.0`. -/
def tiDecayLr (base f : ℚ) : ℚ := base * (1 - f) ^ 2

/-- One execution of the pivot-or-decay block at the top of the loop body
(trainer.py lines 272-290).  With `hard_pivot`, once `epoch >= num_train_epochs
// 2` and the handle is still live, the block clears the optimizer's parameter
groups, deletes its per-parameter state and nulls the handle (the returned flag
records that the pivot fired); on an already-null handle the `optimizer is not
None` guard makes it a no-op.  Without `hard_pivot`, line 290 assigns the
decayed rate to `optimizer.param_groups[0]['lr']`, dereferencing the handle
unconditionally, so a null handle would raise `AttributeError`. -/
def lrPhase (hardPivot : Bool) (base : ℚ) (epoch step L E : Nat)
    (opt : Option TIOptimizer) : Except PyError (Option TIOptimizer × Bool) :=
  if hardPivot then
    if E / 2 ≤ epoch then
      match opt with
      | some _ => .ok (none, true)
      | none => .ok (none, false)
    else .ok (opt, false)
  else
    match opt with
    | some _ => .ok (some ⟨tiDecayLr base (completionF epoch step L E)⟩, false)
    | none => .error .attributeError

/-- The per-step record `ti_lrs.append(optimizer.param_groups[0]['lr'])` with
its bare-except fallback `ti_lrs.append(0.0)` (trainer.py lines 444-447): a
null handle reads as rate 0. -/
def tiLrRecord (opt : Option TIOptimizer) : ℚ :=
  match opt with
  | some o => o.lr
  | none => 0

/-- Runs the pivot-or-decay block over a list of `(epoch, step)` loop positions,
recording the textual-inversion learning rate after each iteration as the loop
does. -/
def runLrTrace (hardPivot : Bool) (base : ℚ) (L E : Nat) :
    List (Nat × Nat) → Option TIOptimizer → Except PyError (Option TIOptimizer × List ℚ)
  | [], opt => .ok (opt, [])
  | (e, s) :: rest, opt =>
    match lrPhase hardPivot base e s L E opt with
    | .error err => .error err
    | .ok (opt2, _) =>
      match runLrTrace hardPivot base L E rest opt2 with
      | .error err => .error err
      | .ok (optF, recs) => .ok (optF, tiLrRecord opt2 :: recs)

/-! ## Optimizer construction (optimizer.py) -/

/-- The optimizer object returned by `get_unet_optimizer`. -/
inductive UnetOptimizer where
  | adamw (lr : ℚ)
  | prodigy (lr d_coef weight_decay : ℚ)
  deriving DecidableEq

/-- optimizer.py lines 6-35, `get_unet_optimizer`: `"adamw"` builds
`torch.optim.AdamW(unet_trainable_params, lr=1e-4)`; `"prodigy"` builds
`prodigyopt.Prodigy(..., d_coef=prodigy_d_coef, lr=1.0,
weight_decay=lora_weight_decay if not use_dora else 0.0, ...)`; any other name
raises `NotImplementedError` before any optimizer exists. -/
def get_unet_optimizer (prodigy_d_coef lora_weight_decay : ℚ) (use_dora : Bool)
    (optimizer_name : String) : Except String UnetOptimizer :=
  if optimizer_name = "adamw" then
    .ok (.adamw (1 / 10000))
  else if optimizer_name = "prodigy" then
    .ok (.prodigy 1 prodigy_d_coef (if use_dora then 0 else lora_weight_decay))
  else
    .error ("Invalid optimizer_name for unet: " ++ optimizer_name)

/-- The optimizer object returned by `get_textual_inversion_optimizer`; the
parameter group records the learning rate placed in `params_to_optimize_ti`. -/
inductive TIOptimizerBuilt where
  | prodigy (group_lr weight_decay : ℚ)
  | adamw (group_lr weight_decay : ℚ)
  deriving DecidableEq

/-- optimizer.py lines 67-112, `get_textual_inversion_optimizer`: the parameter
group carries `lr = textual_inversion_lr if (optimizer_name != "prodigy") else
1.0`; `"prodigy"` and `"adamw"` construct their optimizer over that group, and
any other name raises `NotImplementedError`. -/
def get_textual_inversion_optimizer (textual_inversion_lr ti_weight_decay : ℚ)
    (optimizer_name : String) : Except String TIOptimizerBuilt :=
  let group_lr := if optimizer_name ≠ "prodigy" then textual_inversion_lr else 1
  if optimizer_name = "prodigy" then
    .ok (.prodigy group_lr ti_weight_decay)
  else if optimizer_name = "adamw" then
    .ok (.adamw group_lr ti_weight_decay)
  else
    .error ("Invalid optimizer_name: " ++ optimizer_name)

/-! ## Effective learning rate (utils/utils.py lines 47-72, get_avg_lr) -/

/-- One Prodigy parameter group as `get_avg_lr` reads it: the keys `d`, `lr`,
`use_bias_correction`, `betas` and `k`, plus the total element count of the
`requires_grad` parameters in the group. -/
structure ProdigyGroup where
  d : ℚ
  lr : ℚ
  use_bias_correction : Bool
  beta1 : ℚ
  beta2 : ℚ
  k : Nat
  numParams : Nat

/-- One AdamW parameter group: it has `lr` and `params` but no `d` key. -/
structure AdamWGroup where
  lr : ℚ
  numParams : Nat

/-- A Python optimizer object passed to `get_avg_lr`; the surrounding `Option`
models passing `None`. -/
inductive PyOptimizer where
  | prodigy (groups : List ProdigyGroup)
  | adamw (groups : List AdamWGroup)

/-- The effective rate of one Prodigy group: `d * lr * bias_correction` where
`bias_correction = ((1 - beta2 ** (k + 1)) ** 0.5) / (1 - beta1 ** (k + 1))`
when the group uses bias correction, else 1 (utils.py lines 53-61).  The float
square root is an external numeric primitive, supplied as `sqrtFn`. -/
def effectiveLr (sqrtFn : ℚ → ℚ) (g : ProdigyGroup) : ℚ :=
  g.d * g.lr *
    (if g.use_bias_correction
      then sqrtFn (1 - g.beta2 ^ (g.k + 1)) / (1 - g.beta1 ^ (g.k + 1)) else 1)

/-- The `try` body of `get_avg_lr` (utils.py lines 49-70).  Dereferencing
`optimizer.param_groups` on `None` raises `AttributeError`; reading
`group['d']` on an AdamW group raises `KeyError` at the first group (with no
groups the loop body never runs and 0.0 is returned); for Prodigy it returns
the parameter-count-weighted average effective rate, or 0.0 with no
parameters. -/
def getAvgLrBody (sqrtFn : ℚ → ℚ) : Option PyOptimizer → Except PyError ℚ
  | none => .error .attributeError
  | some (.adamw []) => .ok 0
  | some (.adamw (_ :: _)) => .error .keyError
  | some (.prodigy groups) =>
    let totalParams : Nat := (groups.map (fun g => g.numParams)).sum
    let totalLr : ℚ :=
      (groups.map (fun g => effectiveLr sqrtFn g * (g.numParams : ℚ))).sum
    if totalParams = 0 then .ok 0 else .ok (totalLr / (totalParams : ℚ))

/-- The bare-`except` handler of `get_avg_lr` (utils.py line 72):
`return optimizer.param_groups[0]['lr']` — itself an `AttributeError` when the
optimizer is `None`, and an `IndexError` when there are no parameter groups. -/
def getAvgLrHandler : Option PyOptimizer → Except PyError ℚ
  | none => .error .attributeError
  | some (.adamw []) => .error .indexError
  | some (.adamw (g :: _)) => .ok g.lr
  | some (.prodigy []) => .error .indexError
  | some (.prodigy (g :: _)) => .ok g.lr

/-- `get_avg_lr` (utils/utils.py lines 47-72): run the `try` body; on any raise
run the handler, whose own raise propagates to the caller. -/
def get_avg_lr (sqrtFn : ℚ → ℚ) (opt : Option PyOptimizer) : Except PyError ℚ :=
  match getAvgLrBody sqrtFn opt with
  | .ok v => .ok v
  | .error _ => getAvgLrHandler opt

/-! ## TrainingConfig construction (config.py lines 94-133) -/

/-- The regularization-related slice of `TrainingConfig` after `__init__`. -/
structure RegularizationConfig where
  use_dora : Bool
  l1_penalty : ℚ
  lora_weight_decay : ℚ
  text_encoder_lora_weight_decay : ℚ
  deriving DecidableEq

/-- config.py lines 120-124: after the pydantic constructor stores the
user-supplied values, `if self.use_dora:` forces `l1_penalty`,
`lora_weight_decay` and `text_encoder_lora_weight_decay` to 0.0. -/
def trainingConfigInit (use_dora : Bool)
    (l1_penalty lora_weight_decay text_encoder_lora_weight_decay : ℚ) :
    RegularizationConfig :=
  if use_dora then
    { use_dora := use_dora, l1_penalty := 0, lora_weight_decay := 0,
      text_encoder_lora_weight_decay := 0 }
  else
    { use_dora := use_dora, l1_penalty := l1_penalty,
      lora_weight_decay := lora_weight_decay,
      text_encoder_lora_weight_decay := text_encoder_lora_weight_decay }

/-- The L1 penalty gate in the loss (trainer.py lines 413-416): the normalized
L1 term is added only when `self.config.l1_penalty > 0.0`. -/
def applyL1Penalty (l1_penalty loss l1_norm : ℚ) : ℚ :=
  if 0 < l1_penalty then loss + l1_penalty * l1_norm else loss

end SDLoraTrainer

namespace SDLoraTrainer

/-! ### Helper lemmas for the checkpoint loop -/

theorem checkpointLoop_fst_eq_filter (cs T : Nat) :
    (checkpointLoop cs T).1 = (List.range T).filter (fun g => g % cs = 0) := by
  induction T with
  | zero => rfl
  | succ n ih =>
    unfold checkpointLoop at *
    rw [List.range_succ, List.foldl_append, List.filter_append]
    simp only [List.foldl_cons, List.foldl_nil]
    by_cases h : n % cs = 0
    · simp [h, ih]
    · simp [h, ih]

theorem checkpointLoop_mem_lt (cs T g : Nat) (hg : g ∈ (checkpointLoop cs T).1) :
    g < T ∧ g % cs = 0 := by
  rw [checkpointLoop_fst_eq_filter] at hg
  simp only [List.mem_filter, List.mem_range, decide_eq_true_eq] at hg
  exact hg

theorem checkpointLoop_snd_mem (cs T : Nat) (hT : 0 < T) :
    (checkpointLoop cs T).2 ∈ (checkpointLoop cs T).1 := by
  have key : ∀ n : Nat,
      ((checkpointLoop cs n).2 ∈ (checkpointLoop cs n).1) ∨
      ((checkpointLoop cs n).2 = 0 ∧ (checkpointLoop cs n).1 = []) := by
    intro n
    induction n with
    | zero => right; exact ⟨rfl, rfl⟩
    | succ m ih =>
      unfold checkpointLoop at *
      rw [List.range_succ, List.foldl_append]
      simp only [List.foldl_cons, List.foldl_nil]
      by_cases h : m % cs = 0
      · left; simp [h]
      · simp only [h, if_false]
        exact ih
  rcases key T with h | h
  · exact h
  · exfalso
    have h0 : (0 : Nat) ∈ (checkpointLoop cs T).1 := by
      rw [checkpointLoop_fst_eq_filter]
      simp only [List.mem_filter, List.mem_range, decide_eq_true_eq]
      exact ⟨hT, Nat.zero_mod cs⟩
    rw [h.2] at h0
    exact List.not_mem_nil 0 h0

/-- Claim C1 counterexample: with `checkpointing_steps = 500`, `max_train_steps
= 1000`, a dataloader of 500 batches and no gradient accumulation (a plain
1000-iteration run), the code leaves THREE checkpoint directories, at steps 0, 500
and 1000 — not exactly two at steps 500 and 1000.  The periodic test
`global_step % checkpointing_steps == 0` runs before the step increment, so it also
fires at step 0, and the step-1000 directory comes from the final-save branch
(the gap 1000 - 500 = 500 exceeds the fixed slack 51). -/
theorem claim_C1_counterexample :
    checkpointsFor 1000 500 1 500 = [0, 500, 1000] ∧
    checkpointsFor 1000 500 1 500 ≠ [500, 1000] := by
  constructor
  · decide
  · decide

/-- Claim C1 (amended): a checkpoint directory for step `g` exists at the end of a
`T`-iteration run exactly when `g` is a multiple of `checkpointing_steps` strictly
below `T` (the periodic rule, which includes step 0), or `g` is the final step `T`
and the last periodic save is more than a fixed slack of 51 steps (not one
checkpoint interval plus a small slack) behind the final step. -/
theorem claim_C1_amended (cs T g : Nat) (hT : 0 < T) :
    g ∈ allCheckpoints cs T ↔
      (g < T ∧ g % cs = 0) ∨ (g = T ∧ 51 < T - (checkpointLoop cs T).2) := by
  have hmemiff : ∀ x : Nat, x ∈ (checkpointLoop cs T).1 ↔ (x < T ∧ x % cs = 0) := by
    intro x
    rw [checkpointLoop_fst_eq_filter]
    simp only [List.mem_filter, List.mem_range, decide_eq_true_eq]
  unfold allCheckpoints finalSaveStep
  by_cases hgap : 51 < T - (checkpointLoop cs T).2
  · rw [if_pos hgap]
    have hTnot : T ∉ (checkpointLoop cs T).1 := by
      intro hmem
      exact absurd ((hmemiff T).mp hmem).1 (Nat.lt_irrefl T)
    rw [if_neg hTnot]
    rw [List.mem_append, List.mem_singleton, hmemiff]
    constructor
    · rintro (h | h)
      · exact Or.inl h
      · exact Or.inr ⟨h, hgap⟩
    · rintro (h | h)
      · exact Or.inl h
      · exact Or.inr h.1
  · rw [if_neg hgap]
    have hlast : (checkpointLoop cs T).2 ∈ (checkpointLoop cs T).1 :=
      checkpointLoop_snd_mem cs T hT
    rw [if_pos hlast, hmemiff]
    constructor
    · intro h
      exact Or.inl h
    · rintro (h | h)
      · exact h
      · exact absurd h.2 hgap

/-- Witness for the amended C1 theorem at the scenario instance. -/
theorem claim_C1_amended_witness :
    0 < 1000 ∧
    (1000 ∈ allCheckpoints 500 1000 ↔
      (1000 < 1000 ∧ 1000 % 500 = 0) ∨
      (1000 = 1000 ∧ 51 < 1000 - (checkpointLoop 500 1000).2)) :=
  ⟨by decide, claim_C1_amended 500 1000 1000 (by decide)⟩

/-- Claim C2 counterexample: with `max_train_steps = 4`, a dataloader of 3 batches
and no gradient accumulation, the loop runs `ceil(4/3) = 2` full epochs of 3 batches
and ends with `global_step = 6 > 4`: the loop does not terminate when the global
step counter reaches `max_train_steps`, and the counter exceeds it during the run. -/
theorem claim_C2_counterexample :
    finalGlobalStep 4 3 1 = 6 ∧ ¬ finalGlobalStep 4 3 1 ≤ 4 := by
  constructor
  · decide
  · decide

/-- Claim C2 (amended): the loop is a state machine over `(epoch, step)` pairs that
terminates only by exhausting `num_train_epochs` full epochs over the dataloader;
there is no in-loop check of `global_step` against `max_train_steps`.  The final
`global_step` equals `num_train_epochs * L`, which is always at least
`max_train_steps` but can strictly exceed it. -/
theorem le_ceilDiv_mul (a b : Nat) (hb : 0 < b) : a ≤ (a + b - 1) / b * b := by
  have hdm := Nat.div_add_mod (a + b - 1) b
  have hmod : (a + b - 1) % b < b := Nat.mod_lt _ hb
  have hcomm : b * ((a + b - 1) / b) = (a + b - 1) / b * b := Nat.mul_comm _ _
  omega

theorem claim_C2_amended (M L GA : Nat) (hL : 0 < L) (hGA : 0 < GA) :
    finalGlobalStep M L GA = numTrainEpochs M L GA * L ∧
    M ≤ finalGlobalStep M L GA := by
  refine ⟨rfl, ?_⟩
  unfold finalGlobalStep totalLoopIterations numTrainEpochs numUpdateStepsPerEpoch
  have hu_pos : 0 < (L + GA - 1) / GA := by
    apply Nat.div_pos _ hGA
    omega
  have hu_le_L : (L + GA - 1) / GA ≤ L := by
    have h1 : L + GA - 1 ≤ L * GA := by
      obtain ⟨l, rfl⟩ : ∃ l, L = l + 1 := ⟨L - 1, by omega⟩
      obtain ⟨g, rfl⟩ : ∃ g, GA = g + 1 := ⟨GA - 1, by omega⟩
      calc l + 1 + (g + 1) - 1 = l + g + 1 := by omega
        _ ≤ l * g + (l + g + 1) := Nat.le_add_left _ _
        _ = (l + 1) * (g + 1) := by ring
    calc (L + GA - 1) / GA ≤ L * GA / GA := Nat.div_le_div_right h1
      _ = L := Nat.mul_div_cancel L hGA
  calc M ≤ (M + (L + GA - 1) / GA - 1) / ((L + GA - 1) / GA) * ((L + GA - 1) / GA) :=
        le_ceilDiv_mul M _ hu_pos
    _ ≤ (M + (L + GA - 1) / GA - 1) / ((L + GA - 1) / GA) * L :=
        Nat.mul_le_mul (Nat.le_refl _) hu_le_L

/-- Witness for the amended C2 theorem at a concrete instance. -/
theorem claim_C2_amended_witness :
    0 < 3 ∧ 0 < 1 ∧
    (finalGlobalStep 4 3 1 = numTrainEpochs 4 3 1 * 3 ∧ 4 ≤ finalGlobalStep 4 3 1) :=
  ⟨by decide, by decide, claim_C2_amended 4 3 1 (by decide) (by decide)⟩

/-! ### List helper lemmas for the loss engine -/

theorem zipWith3_replicate_of_le {α β γ δ : Type} (F : α → β → γ → δ) :
    ∀ (p : List α) (t : List β) (k : Nat) (r : γ), p.length ≤ k →
      zipWith3 F p t (List.replicate k r) = List.zipWith (fun a b => F a b r) p t := by
  intro p
  induction p with
  | nil => intro t k r h; cases t <;> cases k <;> rfl
  | cons a as ih =>
    intro t k r h
    cases t with
    | nil => cases k <;> rfl
    | cons b bs =>
      cases k with
      | zero => simp at h
      | succ m =>
        simp only [List.replicate_succ, zipWith3, List.zipWith_cons_cons]
        rw [ih bs m r (by simpa using h)]

theorem zipWith_replicate_of_le {α β γ : Type} (f : α → β → γ) :
    ∀ (l : List α) (k : Nat) (b : β), l.length ≤ k →
      List.zipWith f l (List.replicate k b) = l.map (fun a => f a b) := by
  intro l
  induction l with
  | nil => intro k b h; cases k <;> rfl
  | cons a as ih =>
    intro k b h
    cases k with
    | zero => simp at h
    | succ m =>
      simp only [List.replicate_succ, List.zipWith_cons_cons, List.map_cons]
      rw [ih m b (by simpa using h)]

theorem map_const_replicate {α β : Type} (l : List α) (b : β) :
    l.map (fun _ => b) = List.replicate l.length b := by
  induction l with
  | nil => rfl
  | cons a as ih => simp [List.replicate_succ, ih]

theorem zipWith_congr_left {α β γ : Type} {f g : α → β → γ} :
    ∀ (l1 : List α) (l2 : List β), (∀ a ∈ l1, ∀ b, f a b = g a b) →
      List.zipWith f l1 l2 = List.zipWith g l1 l2 := by
  intro l1
  induction l1 with
  | nil => intro l2 _; rfl
  | cons a as ih =>
    intro l2 h
    cases l2 with
    | nil => rfl
    | cons b bs =>
      simp only [List.zipWith_cons_cons]
      rw [h a (List.mem_cons_self a as) b,
        ih bs (fun x hx b2 => h x (List.mem_cons_of_mem a hx) b2)]

theorem sum_map_mul_left (c : ℚ) (l : List ℚ) :
    (l.map (fun x => c * x)).sum = c * l.sum := by
  induction l with
  | nil => simp
  | cons a as ih =>
    simp only [List.map_cons, List.sum_cons, ih]
    ring

theorem meanList_map_mul_left (c : ℚ) (l : List ℚ) :
    meanList (l.map (fun x => c * x)) = c * meanList l := by
  unfold meanList
  rw [sum_map_mul_left, List.length_map, mul_div_assoc]

theorem meanList_replicate (k : Nat) (c : ℚ) (hk : 0 < k) :
    meanList (List.replicate k c) = c := by
  unfold meanList
  rw [List.sum_replicate, List.length_replicate, nsmul_eq_mul]
  exact mul_div_cancel_left₀ c (Nat.cast_ne_zero.mpr hk.ne')

/-- Claim C3 counterexample: a single-example batch with uniform mask value
`c = 1/2 > 0` (with the `snr_gamma is None` branch and no L1 penalty): the
computed loss is `1/2` while the plain mean squared error is `1` — the
mask-mean normalization cancels only the variation of the mask means across the
batch, not the scale `c` itself, so the loss is NOT the plain MSE. -/
theorem claim_C3_counterexample :
    (0 : ℚ) < 1 / 2 ∧
    maskedLoss [[1]] [[0]] [[(1 : ℚ) / 2]] = 1 / 2 ∧
    mse [[1]] [[0]] = 1 ∧
    maskedLoss [[1]] [[0]] [[(1 : ℚ) / 2]] ≠ mse [[1]] [[0]] := by
  refine ⟨by norm_num, ?_, ?_, ?_⟩
  · norm_num [maskedLoss, maskMeans, perExampleMaskedMean, meanList, zipWith3]
  · norm_num [mse, meanList]
  · norm_num [maskedLoss, mse, maskMeans, perExampleMaskedMean, meanList, zipWith3]

/-- Claim C3 (amended): for a batch whose mask is uniformly the constant
`c > 0` (every example's mask row is `n` copies of `c`), with SNR reweighting
disabled and no L1 penalty, the computed loss equals `c` TIMES the plain mean
squared error; it equals the plain MSE exactly in the all-ones case `c = 1`. -/
theorem claim_C3_amended (n : Nat) (c : ℚ) (P T : List (List ℚ))
    (hc : 0 < c) (hn : 0 < n) (hP : P ≠ [])
    (hPr : ∀ r ∈ P, r.length = n) :
    maskedLoss P T (List.replicate P.length (List.replicate n c)) = c * mse P T := by
  have hb : 0 < P.length := List.length_pos.mpr hP
  have hPerEx : perExampleMaskedMean P T (List.replicate P.length (List.replicate n c)) =
      (List.zipWith
        (fun p t => meanList (List.zipWith (fun pi ti => (pi - ti) ^ 2) p t)) P T).map
        (fun x => c * x) := by
    unfold perExampleMaskedMean
    rw [zipWith3_replicate_of_le _ P T P.length _ (Nat.le_refl _)]
    rw [zipWith_congr_left P T (g :=
      fun p t => c * meanList (List.zipWith (fun pi ti => (pi - ti) ^ 2) p t)) ?_]
    · exact (List.map_zipWith _ _ _ _).symm
    · intro p hp t
      have hpl : p.length ≤ n := (hPr p hp).le
      rw [zipWith3_replicate_of_le _ p t n c hpl]
      have hfun : (fun (pi ti : ℚ) => (pi - ti) ^ 2 * c) =
          (fun pi ti => c * (pi - ti) ^ 2) := by
        funext pi ti
        ring
      rw [hfun, ← List.map_zipWith, meanList_map_mul_left]
  have hmm : maskMeans (List.replicate P.length (List.replicate n c)) =
      List.replicate P.length c := by
    unfold maskMeans
    rw [List.map_replicate, meanList_replicate n c hn]
  show meanList (List.zipWith (fun l x => l / x)
      (perExampleMaskedMean P T (List.replicate P.length (List.replicate n c)))
      ((maskMeans (List.replicate P.length (List.replicate n c))).map
        (fun x => x / meanList
          (maskMeans (List.replicate P.length (List.replicate n c)))))) = c * mse P T
  rw [hmm, meanList_replicate P.length c hb, List.map_replicate, div_self hc.ne',
    hPerEx]
  rw [zipWith_replicate_of_le _ _ _ _ (by
    rw [List.length_map, List.length_zipWith]
    exact Nat.min_le_left _ _)]
  simp only [div_one, List.map_id']
  rw [meanList_map_mul_left]
  rfl

/-- Witness for the amended C3 theorem at a concrete batch. -/
theorem claim_C3_amended_witness :
    maskedLoss [[1, 2]] [[0, 0]]
      (List.replicate (List.length [[(1 : ℚ), 2]]) (List.replicate 2 ((1 : ℚ) / 2))) =
      (1 : ℚ) / 2 * mse [[1, 2]] [[0, 0]] :=
  claim_C3_amended 2 (1 / 2) [[1, 2]] [[0, 0]] (by norm_num) (by decide)
    (by simp) (by decide)

/-- Claim C4: the textual-inversion learning rate written by the analytic
schedule (trainer.py line 290) equals `base_lr * (1 - f)^2` at every epoch
fraction `f`, is monotonically non-increasing in `f` on `[0, 1]`, and is
exactly 0 at `f = 1`. -/
theorem claim_C4 (base f f1 f2 : ℚ) (hbase : 0 ≤ base)
    (h1 : 0 ≤ f1) (h12 : f1 ≤ f2) (h2 : f2 ≤ 1) :
    tiDecayLr base f = base * (1 - f) ^ 2 ∧
    tiDecayLr base f2 ≤ tiDecayLr base f1 ∧
    tiDecayLr base 1 = 0 := by
  refine ⟨rfl, ?_, by norm_num [tiDecayLr]⟩
  unfold tiDecayLr
  have hsq : (1 - f2) ^ 2 ≤ (1 - f1) ^ 2 := by nlinarith
  exact mul_le_mul_of_nonneg_left hsq hbase

/-- Witness for the C4 theorem at concrete fractions. -/
theorem claim_C4_witness :
    tiDecayLr 3 (1 / 3) = 3 * (1 - 1 / 3) ^ 2 ∧
    tiDecayLr 3 (1 / 2) ≤ tiDecayLr 3 (1 / 4) ∧
    tiDecayLr 3 1 = 0 :=
  claim_C4 3 (1 / 3) (1 / 4) (1 / 2) (by norm_num) (by norm_num) (by norm_num)
    (by norm_num)

/-- Claim C5 counterexample: prediction `[[0], [1]]`, target `[[0], [0]]`, mask
`[[1], [1/2]]`, per-example SNR `[1, 1]` and `snr_gamma = 2 ≥` every SNR value
(the finite shadow of `snr_gamma = +∞`: every weight is exactly 1 after
normalization).  The SNR-branch loss is `1/4` while the disabled-branch masked
loss is `3/8`: the two paths are NOT equivalent, because in the SNR branch the
loss tensor is already one-dimensional when the mask normalization runs, so
that normalization degenerates to dividing by 1. -/
theorem claim_C5_counterexample :
    (0 : ℚ) < 1 ∧ (1 : ℚ) ≤ 2 ∧
    snrLoss 2 [1, 1] [[0], [1]] [[0], [0]] [[1], [(1 : ℚ) / 2]] = 1 / 4 ∧
    maskedLoss [[0], [1]] [[0], [0]] [[1], [(1 : ℚ) / 2]] = 3 / 8 ∧
    snrLoss 2 [1, 1] [[0], [1]] [[0], [0]] [[1], [(1 : ℚ) / 2]] ≠
      maskedLoss [[0], [1]] [[0], [0]] [[1], [(1 : ℚ) / 2]] := by
  refine ⟨by norm_num, by norm_num, ?_, ?_, ?_⟩
  · norm_num [snrLoss, normalizeWeights, baseWeight, meanAllElements,
      perExampleMaskedMean, meanList, zipWith3]
  · norm_num [maskedLoss, maskMeans, perExampleMaskedMean, meanList, zipWith3]
  · norm_num [snrLoss, maskedLoss, maskMeans, normalizeWeights, baseWeight,
      meanAllElements, perExampleMaskedMean, meanList, zipWith3]

/-- Claim C5 (amended): in the `snr_gamma = +∞` regime (every per-example SNR
is positive and at most `gamma`, so every weight is 1 after normalization) with
a mask of nonzero global mean, the SNR-branch loss equals the PLAIN batch mean
of the per-example masked means — the per-example mask-mean normalization of
the disabled branch is absent, because on lines 407-409 the loss is already
one-dimensional and the `mean(dim=[])` normalization divides a scalar by
itself.  The two paths therefore agree only on batches whose per-example mask
means are all equal, not for all identical inputs. -/
theorem claim_C5_amended (gamma : ℚ) (snr : List ℚ) (P T M : List (List ℚ))
    (hsnr : ∀ s ∈ snr, 0 < s ∧ s ≤ gamma) (hne : snr ≠ [])
    (hlen : (perExampleMaskedMean P T M).length ≤ snr.length)
    (hM : meanAllElements M ≠ 0) :
    snrLoss gamma snr P T M = meanList (perExampleMaskedMean P T M) := by
  have hk : 0 < snr.length := List.length_pos.mpr hne
  have hbw : baseWeight gamma snr = List.replicate snr.length 1 := by
    unfold baseWeight
    have h1 : snr.map (fun s => min s gamma / s) = snr.map (fun _ => (1 : ℚ)) :=
      List.map_congr_left (fun s hs => by
        rcases hsnr s hs with ⟨h0, hle⟩
        rw [min_eq_left hle, div_self h0.ne'])
    rw [h1, map_const_replicate]
  have hnw : normalizeWeights (baseWeight gamma snr) = List.replicate snr.length 1 := by
    rw [hbw]
    unfold normalizeWeights
    rw [meanList_replicate _ _ hk, List.map_replicate, div_one]
  show meanList (List.zipWith (fun l wi => l * wi) (perExampleMaskedMean P T M)
      (normalizeWeights (baseWeight gamma snr))) /
      (meanAllElements M / meanAllElements M) = meanList (perExampleMaskedMean P T M)
  rw [hnw, div_self hM, div_one, zipWith_replicate_of_le _ _ _ _ hlen]
  simp only [mul_one, List.map_id']

/-- Witness for the amended C5 theorem at a concrete batch. -/
theorem claim_C5_amended_witness :
    snrLoss 2 [1] [[1]] [[0]] [[1]] = meanList (perExampleMaskedMean [[1]] [[0]] [[1]]) :=
  claim_C5_amended 2 [1] [[1]] [[0]] [[1]] (by decide) (by decide)
    (by decide) (by norm_num [meanAllElements])

/-- Claim C6: with `hard_pivot`, once the threshold epoch `num_train_epochs //
2` is reached the pivot fires exactly once — clearing the handle — and
re-evaluating the pivot check on a later step over the now-null handle neither
raises nor fires again (the `optimizer is not None` guard), while the
textual-inversion rate query reads the null handle as 0 on both occasions. -/
theorem claim_C6 (o : TIOptimizer) (base : ℚ) (e1 s1 e2 s2 L E : Nat)
    (h1 : E / 2 ≤ e1) (h2 : E / 2 ≤ e2) :
    lrPhase true base e1 s1 L E (some o) = .ok (none, true) ∧
    lrPhase true base e2 s2 L E none = .ok (none, false) ∧
    tiLrRecord none = 0 := by
  refine ⟨?_, ?_, rfl⟩
  · simp [lrPhase, h1]
  · simp [lrPhase, h2]

/-- Witness for the C6 theorem at a concrete run position. -/
theorem claim_C6_witness :
    lrPhase true 7 3 0 5 6 (some ⟨2⟩) = .ok (none, true) ∧
    lrPhase true 7 4 1 5 6 none = .ok (none, false) ∧
    tiLrRecord none = 0 :=
  claim_C6 ⟨2⟩ 7 3 0 4 1 5 6 (by decide) (by decide)

/-- Claim C7 evaluation (code bug): calling `get_avg_lr` with a null optimizer
does NOT return 0 — the `try` body raises `AttributeError` dereferencing
`None.param_groups`, and the bare-except handler `return
optimizer.param_groups[0]['lr']` dereferences `None` again, so the
`AttributeError` it raises propagates out of the function.  This contradicts
the stated contract (return 0, never raise); the trainer itself calls
`get_avg_lr(optimizer_prod)` every step with `optimizer_prod = None` whenever
`optimizer_name == "adamw"` (trainer.py lines 165-170, 443), so the intent of
the fallback is clearly to be total and the handler is the slip. -/
theorem claim_C7_code_bug (sqrtFn : ℚ → ℚ) :
    get_avg_lr sqrtFn none = .error .attributeError := rfl

/-- Claim C8: for every optimizer name other than "adamw" and "prodigy", both
construction functions raise `NotImplementedError` immediately, before any
optimizer object exists — there is no silent fallback to a default
algorithm. -/
theorem claim_C8
    (prodigy_d_coef lora_weight_decay textual_inversion_lr ti_weight_decay : ℚ)
    (use_dora : Bool) (optimizer_name : String)
    (h1 : optimizer_name ≠ "adamw") (h2 : optimizer_name ≠ "prodigy") :
    get_unet_optimizer prodigy_d_coef lora_weight_decay use_dora optimizer_name =
      .error ("Invalid optimizer_name for unet: " ++ optimizer_name) ∧
    get_textual_inversion_optimizer textual_inversion_lr ti_weight_decay
      optimizer_name = .error ("Invalid optimizer_name: " ++ optimizer_name) := by
  constructor
  · simp [get_unet_optimizer, h1, h2]
  · simp [get_textual_inversion_optimizer, h1, h2]

/-- Witness for the C8 theorem at the unknown name "sgd". -/
theorem claim_C8_witness :
    get_unet_optimizer 1 2 true "sgd" =
      .error ("Invalid optimizer_name for unet: " ++ "sgd") ∧
    get_textual_inversion_optimizer 3 4 "sgd" =
      .error ("Invalid optimizer_name: " ++ "sgd") :=
  claim_C8 1 2 3 4 true "sgd" (by decide) (by decide)

/-- Claim C9: with `hard_pivot = true`, the analytic quadratic decay is never
applied: over any sequence of loop positions whose epochs are all below the
pivot threshold `num_train_epochs // 2`, the pivot-or-decay block leaves the
textual-inversion optimizer untouched (the decay assignment lives in the
`else` branch of `if self.config.hard_pivot`, so the two are mutually
exclusive), every recorded rate is the constructed base rate, and no error is
raised. -/
theorem claim_C9 (base tiBase : ℚ) (L E : Nat) (steps : List (Nat × Nat))
    (h : ∀ p ∈ steps, p.1 < E / 2) :
    runLrTrace true tiBase L E steps (some ⟨base⟩) =
      .ok (some ⟨base⟩, List.replicate steps.length base) := by
  induction steps with
  | nil => rfl
  | cons hd tl ih =>
    obtain ⟨e, s⟩ := hd
    have he : ¬ (E / 2 ≤ e) := Nat.not_le.mpr (h (e, s) (List.mem_cons_self _ _))
    have hstep : lrPhase true tiBase e s L E (some ⟨base⟩) =
        .ok (some ⟨base⟩, false) := by
      simp [lrPhase, he]
    have htl := ih (fun p hp => h p (List.mem_cons_of_mem _ hp))
    simp only [runLrTrace, hstep, htl, tiLrRecord, List.length_cons,
      List.replicate_succ]

/-- Witness for the C9 theorem over a concrete pre-pivot trace. -/
theorem claim_C9_witness :
    runLrTrace true 3 5 10 [(0, 0), (1, 2)] (some ⟨7⟩) =
      .ok (some ⟨7⟩, List.replicate (List.length [((0 : Nat), (0 : Nat)), (1, 2)]) 7) :=
  claim_C9 7 3 5 10 [(0, 0), (1, 2)] (by decide)

/-- Claim C10: constructing a `TrainingConfig` with `use_dora = true` forces
`l1_penalty`, `lora_weight_decay` and `text_encoder_lora_weight_decay` to 0.0
regardless of the user-supplied values, and with `l1_penalty = 0` the loss
gate `if self.config.l1_penalty > 0.0` never adds the L1 sparsity term. -/
theorem claim_C10 (use_dora : Bool)
    (l1_penalty lora_weight_decay text_encoder_lora_weight_decay loss l1_norm : ℚ)
    (h : use_dora = true) :
    (trainingConfigInit use_dora l1_penalty lora_weight_decay
      text_encoder_lora_weight_decay).l1_penalty = 0 ∧
    (trainingConfigInit use_dora l1_penalty lora_weight_decay
      text_encoder_lora_weight_decay).lora_weight_decay = 0 ∧
    (trainingConfigInit use_dora l1_penalty lora_weight_decay
      text_encoder_lora_weight_decay).text_encoder_lora_weight_decay = 0 ∧
    applyL1Penalty (trainingConfigInit use_dora l1_penalty lora_weight_decay
      text_encoder_lora_weight_decay).l1_penalty loss l1_norm = loss := by
  subst h
  refine ⟨rfl, rfl, rfl, ?_⟩
  simp [trainingConfigInit, applyL1Penalty]

/-- Witness for the C10 theorem at concrete user-supplied coefficients. -/
theorem claim_C10_witness :
    (trainingConfigInit true 5 6 7).l1_penalty = 0 ∧
    (trainingConfigInit true 5 6 7).lora_weight_decay = 0 ∧
    (trainingConfigInit true 5 6 7).text_encoder_lora_weight_decay = 0 ∧
    applyL1Penalty (trainingConfigInit true 5 6 7).l1_penalty 8 9 = 8 :=
  claim_C10 true 5 6 7 8 9 rfl

end SDLoraTrainer
